import Mathlib

/-!
Verification development for the invoice-extraction core of the
Novanta-PDF-Reader repository (`src/streamlit_app.py`).

The Python functions are shallowly embedded as executable Lean functions
over `String` and `List String`.  Python's `re` patterns, which are all
anchored and simple, are embedded as explicit character-list scans with
the same greedy-with-backtracking semantics on the character classes
involved.  Page texts are plain strings; a document is a `List String`
of page texts (the `pdfplumber` page-text provider is outside the core).
-/

/-- ASCII whitespace as recognised by Python's `str.split` / `str.strip` /
`\s` on the inputs relevant here: space, tab, newline, carriage return,
vertical tab, form feed. -/
def pyIsSpace (c : Char) : Bool :=
  c = ' ' || c = '\t' || c = '\n' || c = '\r' || c = Char.ofNat 11 || c = Char.ofNat 12

/-- `str.strip()` on a character list: drop whitespace from both ends. -/
def stripChars (cs : List Char) : List Char :=
  ((cs.dropWhile pyIsSpace).reverse.dropWhile pyIsSpace).reverse

/-- Python `str.strip()`. -/
def pyStrip (s : String) : String := String.mk (stripChars s.data)

/-- Helper for `splitWS`: split characters into maximal non-whitespace runs,
`acc` holding the characters of the current run in reverse. -/
def splitWSChars : List Char → List Char → List String
  | [], acc => if acc.isEmpty then [] else [String.mk acc.reverse]
  | c :: cs, acc =>
    if pyIsSpace c then
      if acc.isEmpty then splitWSChars cs [] else String.mk acc.reverse :: splitWSChars cs []
    else splitWSChars cs (c :: acc)

/-- Python `str.split()` with no argument: split on runs of whitespace,
discarding empty tokens. -/
def splitWS (s : String) : List String := splitWSChars s.data []

/-- Helper for `splitlines`: split at `\n`, `\r\n` or `\r`, no trailing
empty line. -/
def splitlinesChars : List Char → List Char → List String
  | [], acc => if acc.isEmpty then [] else [String.mk acc.reverse]
  | '\r' :: '\n' :: cs, acc => String.mk acc.reverse :: splitlinesChars cs []
  | '\n' :: cs, acc => String.mk acc.reverse :: splitlinesChars cs []
  | '\r' :: cs, acc => String.mk acc.reverse :: splitlinesChars cs []
  | c :: cs, acc => splitlinesChars cs (c :: acc)

/-- Python `str.splitlines()`. -/
def splitlines (s : String) : List String := splitlinesChars s.data []

/-- Substring containment on character lists (`needle` occurs inside the
scanned list). -/
def strContainsChars (needle : List Char) : List Char → Bool
  | [] => needle.isEmpty
  | s@(_ :: rest) => needle.isPrefixOf s || strContainsChars needle rest

/-- Python's `pat in s` substring test. -/
def strContains (s pat : String) : Bool := strContainsChars pat.data s.data

/-- Python `" ".join(l)`. -/
def joinSpace : List String → String
  | [] => ""
  | [t] => t
  | t :: u :: rest => t ++ " " ++ joinSpace (u :: rest)

/-- Python `"\n".join(l)`. -/
def joinNL : List String → String
  | [] => ""
  | [t] => t
  | t :: u :: rest => t ++ "\n" ++ joinNL (u :: rest)

/-- Python `l.index(x)` (guarded by `x in l`): index of the first
occurrence, `none` when absent. -/
def listIndexOf (x : String) : List String → Option Nat
  | [] => none
  | y :: ys => if y = x then some 0 else (listIndexOf x ys).map (· + 1)

/-- The regex `^\d+$`: a non-empty all-digit string. -/
def isAllDigits (s : String) : Bool := !s.data.isEmpty && s.data.all Char.isDigit

/-- The regex `^\d+\.\d*$` used on the left token of the split-number
merge in `merge_numeric_tokens`: digits, a dot, then zero or more digits. -/
def matchNumTail (s : String) : Bool :=
  let p := s.data.span Char.isDigit
  !p.1.isEmpty &&
    (match p.2 with
     | '.' :: fs => fs.all Char.isDigit
     | _ => false)

/-- Helper for `merge_numeric_tokens`, embedding the indexed Python loop:
the `Bool` argument is the loop's `skip_next` flag. -/
def mergeNumericGo : List String → Bool → List String
  | [], _ => []
  | _ :: rest, true => mergeNumericGo rest false
  | [t], false => [t]
  | t :: next :: rest, false =>
    if matchNumTail t && isAllDigits next then
      (t ++ next) :: mergeNumericGo (next :: rest) true
    else t :: mergeNumericGo (next :: rest) false

/-- `merge_numeric_tokens` (src/streamlit_app.py lines 31-47): merge
tokens that appear to be split parts of a number, e.g. `["25.0", "0"]`
into `["25.00"]`. -/
def merge_numeric_tokens (tokens : List String) : List String :=
  mergeNumericGo tokens false

/-- The split-number merge written as a direct recursion on adjacent
pairs, with the code's left-token pattern `^\d+\.\d*$`; proved equal to
`merge_numeric_tokens` below. -/
def mergeNumericPairs : List String → List String
  | t :: next :: rest =>
    if matchNumTail t && isAllDigits next then
      (t ++ next) :: mergeNumericPairs rest
    else t :: mergeNumericPairs (next :: rest)
  | l => l

/-- The claim's left-token condition read literally: "digits.digits",
i.e. at least one digit on each side of the dot (regex `^\d+\.\d+$`). -/
def isDigitsDotDigits (s : String) : Bool :=
  let p := s.data.span Char.isDigit
  !p.1.isEmpty &&
    (match p.2 with
     | '.' :: fs => !fs.isEmpty && fs.all Char.isDigit
     | _ => false)

/-- The split-number merge as the specification's words describe it:
merge exactly when token i matches "digits.digits" (`^\d+\.\d+$`) and
token i+1 is all digits.  Used to compare the spec's wording with the
code's behaviour. -/
def mergeNumericPairsSpec : List String → List String
  | t :: next :: rest =>
    if isDigitsDotDigits t && isAllDigits next then
      (t ++ next) :: mergeNumericPairsSpec rest
    else t :: mergeNumericPairsSpec (next :: rest)
  | l => l

/-- The character class `[A-Za-z0-9\-]` of the fusion-split regex. -/
def isCodeChar (c : Char) : Bool := c.isAlphanum || c = '-'

/-- The fusion split applied per data token in
`get_pack_list_id_from_tokens` (lines 120-125): Python
`re.match(r'^(\d+\.\d+)([A-Za-z0-9\-]+)$', token)` with its greedy,
backtracking group semantics; on a match the token is replaced by the
two groups, otherwise kept.  Backtracking makes a pure decimal with at
least two fractional digits split before its last digit, and otherwise
group 1 is the maximal leading `\d+\.\d+` prefix. -/
def fixToken (t : String) : List String :=
  let p := t.data.span Char.isDigit
  if p.1.isEmpty then [t]
  else
    match p.2 with
    | '.' :: rest2 =>
      let q := rest2.span Char.isDigit
      if q.1.isEmpty then [t]
      else if q.2.isEmpty then
        if 2 ≤ q.1.length then
          [String.mk (p.1 ++ '.' :: q.1.dropLast), String.mk (q.1.drop (q.1.length - 1))]
        else [t]
      else if q.2.all isCodeChar then [String.mk (p.1 ++ '.' :: q.1), String.mk q.2]
      else [t]
    | _ => [t]

/-- The `fixed_data_tokens` loop of `get_pack_list_id_from_tokens`:
apply the fusion split to every token, extending the output list. -/
def fixAllTokens : List String → List String
  | [] => []
  | t :: ts => fixToken t ++ fixAllTokens ts

/-- The whole token-repair pipeline applied to a data line's tokens in
`get_pack_list_id_from_tokens` (lines 119-126): fusion split, then
split-number merge. -/
def repairDataTokens (tokens : List String) : List String :=
  merge_numeric_tokens (fixAllTokens tokens)

/-- `merge_header_tokens` (src/streamlit_app.py lines 6-29): merge
multi-word header tokens, trying at each position, in order, the
3-token rule "PACK LIST ID" and the 2-token rules "PART ID",
"SHIPPING METHOD", "SHIP DATE"; unmatched tokens pass through. -/
def merge_header_tokens : List String → List String
  | a :: b :: c :: rest =>
    if a = "PACK" ∧ b = "LIST" ∧ c = "ID" then "PACK LIST ID" :: merge_header_tokens rest
    else if a = "PART" ∧ b = "ID" then "PART ID" :: merge_header_tokens (c :: rest)
    else if a = "SHIPPING" ∧ b = "METHOD" then "SHIPPING METHOD" :: merge_header_tokens (c :: rest)
    else if a = "SHIP" ∧ b = "DATE" then "SHIP DATE" :: merge_header_tokens (c :: rest)
    else a :: merge_header_tokens (b :: c :: rest)
  | [a, b] =>
    if a = "PART" ∧ b = "ID" then ["PART ID"]
    else if a = "SHIPPING" ∧ b = "METHOD" then ["SHIPPING METHOD"]
    else if a = "SHIP" ∧ b = "DATE" then ["SHIP DATE"]
    else [a, b]
  | [a] => [a]
  | [] => []

/-- `get_pack_list_id_from_tokens` (src/streamlit_app.py lines 109-131):
scan the page's lines; at each line containing the substrings "PACK",
"LIST" and "ID", merge the header tokens, repair the following line's
tokens, and return the repaired token at the index of the
"PACK LIST ID" logical column; when that column is absent or the index
is out of range, the loop continues with the remaining lines. -/
def get_pack_list_id_from_tokens : List String → Option String
  | [] => none
  | line :: rest =>
    if strContains line "PACK" && strContains line "LIST" && strContains line "ID" then
      let header_tokens := merge_header_tokens (splitWS line)
      let data_tokens := repairDataTokens (splitWS (rest.headD ""))
      match listIndexOf "PACK LIST ID" header_tokens with
      | some idx =>
        match data_tokens[idx]? with
        | some tok => some tok
        | none => get_pack_list_id_from_tokens rest
      | none => get_pack_list_id_from_tokens rest
    else get_pack_list_id_from_tokens rest

/-- `get_shipping_info` (src/streamlit_app.py lines 133-158): at the
first line containing both "SHIPPING METHOD" and "SHIP DATE", split the
following line; with at least 5 tokens, the shipping method is the
space-join of tokens 2..-3 and the ship date is token -2; otherwise
both stay `none`.  The loop breaks at the first such line regardless. -/
def get_shipping_info : List String → Option String × Option String
  | [] => (none, none)
  | line :: rest =>
    if strContains line "SHIPPING METHOD" && strContains line "SHIP DATE" then
      match rest with
      | [] => (none, none)
      | data_line :: _ =>
        let ts := splitWS data_line
        if 5 ≤ ts.length then
          (some (joinSpace ((ts.take (ts.length - 2)).drop 2)), ts[ts.length - 2]?)
        else (none, none)
    else get_shipping_info rest

/-- Header search of `get_ship_to_address` (lines 168-174): the lines
after the first line containing both "Bill To Address" and
"Ship To Address", or `none`. -/
def findShipToStart : List String → Option (List String)
  | [] => none
  | line :: rest =>
    if strContains line "Bill To Address" && strContains line "Ship To Address" then some rest
    else findShipToStart rest

/-- Address-line collection of `get_ship_to_address` (lines 176-188):
stop at a blank or "NL" line; an even-token line contributes the
space-join of its right half, an odd-token line is taken verbatim. -/
def shipToCollect : List String → List String
  | [] => []
  | line :: rest =>
    if pyStrip line = "" || pyStrip line = "NL" then []
    else
      let ts := splitWS line
      if ts.length % 2 = 0 then joinSpace (ts.drop (ts.length / 2)) :: shipToCollect rest
      else line :: shipToCollect rest

/-- `get_ship_to_address` (src/streamlit_app.py lines 161-189). -/
def get_ship_to_address (text : String) : Option String :=
  match findShipToStart (splitlines text) with
  | some rest => some (joinNL (shipToCollect rest))
  | none => none

/-- Header search of `get_all_parts` (lines 54-61): the lines after the
first line containing both "PART ID" and "DESCRIPTION", or `none`. -/
def findPartsHeader : List String → Option (List String)
  | [] => none
  | line :: rest =>
    if strContains line "PART ID" && strContains line "DESCRIPTION" then some rest
    else findPartsHeader rest

/-- Python `rows[-1] = rows[-1] + " " + x`. -/
def appendToLast : List String → String → List String
  | [], _ => []
  | [r], x => [r ++ " " ++ x]
  | r :: rs, x => r :: appendToLast rs x

/-- Row collection of `get_all_parts` (lines 63-79): collect stripped
lines until a "Country MFG:" line; skip blank lines; a purely numeric
line is appended to the last collected row when one exists and is
otherwise dropped. -/
def collectRows : List String → List String → List String
  | [], rows => rows
  | line :: rest, rows =>
    if strContains line "Country MFG:" then rows
    else if pyStrip line = "" then collectRows rest rows
    else if isAllDigits (pyStrip line) then
      match rows with
      | [] => collectRows rest rows
      | _ :: _ => collectRows rest (appendToLast rows (pyStrip line))
    else collectRows rest (rows ++ [pyStrip line])

/-- One row of the parts table, `(PART ID, DESCRIPTION, Unit Price,
Extended Price)` in the source's tuple order. -/
structure PartRecord where
  partId : String
  description : String
  unitPrice : Option String
  extendedPrice : Option String
deriving DecidableEq, Repr

/-- Python `re.sub(r'^\d+\.\d+', '', token)` in `get_all_parts`
(line 89): remove a maximal leading decimal-number prefix, if any. -/
def stripLeadingDecimal (t : String) : String :=
  let p := t.data.span Char.isDigit
  if p.1.isEmpty then t
  else
    match p.2 with
    | '.' :: rest2 =>
      let q := rest2.span Char.isDigit
      if q.1.isEmpty then t else String.mk q.2
    | _ => t

/-- Python `token.startswith('$')`. -/
def startsWithDollar (t : String) : Bool :=
  match t.data with
  | '$' :: _ => true
  | _ => false

/-- Description/price split of `get_all_parts` (lines 93-102): a token
starting with '$' and every later token go to the prices, earlier
tokens to the description.  Accumulators are kept reversed. -/
def descPriceSplit : List String → List String → List String → List String × List String
  | [], ds, ps => (ds.reverse, ps.reverse)
  | t :: ts, ds, ps =>
    if startsWithDollar t then descPriceSplit ts ds (t :: ps)
    else if ps.isEmpty then descPriceSplit ts (t :: ds) ps
    else descPriceSplit ts ds (t :: ps)

/-- Per-row parsing of `get_all_parts` (lines 82-106): rows with fewer
than 3 tokens are discarded; token 1 minus its leading decimal prefix
is the part id; the remaining tokens split into description and up to
two prices. -/
def parseRow (row : String) : Option PartRecord :=
  let tokens := splitWS row
  if tokens.length < 3 then none
  else
    let pr := descPriceSplit (tokens.drop 2) [] []
    some ⟨stripLeadingDecimal (tokens.getD 1 ""), joinSpace pr.1, pr.2[0]?, pr.2[1]?⟩

/-- `get_all_parts` on the already split page lines. -/
def getAllPartsFromLines (lines : List String) : List PartRecord :=
  match findPartsHeader lines with
  | none => []
  | some rest => (collectRows rest []).filterMap parseRow

/-- `get_all_parts` (src/streamlit_app.py lines 49-107). -/
def get_all_parts (text : String) : List PartRecord :=
  getAllPartsFromLines (splitlines text)

/-- Scan embedding Python `re.search(label + r'\s*(C+)', text)` for a
literal label and a one-character class `C`: at each position where the
label occurs, skip maximal whitespace and capture the maximal non-empty
run of class characters; on an empty capture the scan resumes at the
next position, exactly as the regex engine does. -/
def searchLabeledGo (label : List Char) (capClass : Char → Bool) : List Char → Option String
  | [] => none
  | s@(_ :: rest) =>
    if label.isPrefixOf s then
      let cap := ((s.drop label.length).dropWhile pyIsSpace).takeWhile capClass
      if cap.isEmpty then searchLabeledGo label capClass rest
      else some (String.mk cap)
    else searchLabeledGo label capClass rest

/-- `re.search(r'Invoice ID:\s*(\S+)', text)` (line 223). -/
def searchInvoiceId (text : String) : Option String :=
  searchLabeledGo "Invoice ID:".data (fun c => !pyIsSpace c) text.data

/-- `re.search(r'Harmonization Code:\s*([\d\.]+)', text)` (line 229). -/
def searchHarmonizationCode (text : String) : Option String :=
  searchLabeledGo "Harmonization Code:".data (fun c => c.isDigit || c = '.') text.data

/-- The word-character class of the regex `\b`. -/
def isWordChar (c : Char) : Bool := c.isAlphanum || c = '_'

/-- Scan embedding `re.search(r'\b(450\d+)\b', text)` (line 235): the
first position, with a non-word character (or start) before it, whose
maximal digit run starts with "450", has length at least 4, and is
followed by a non-word character or the end; greedy `\d+` with the
trailing `\b` admits exactly the maximal run. -/
def searchPOGo : Option Char → List Char → Option String
  | _, [] => none
  | prev, s@(c :: rest) =>
    let run := s.takeWhile Char.isDigit
    let prevOk := match prev with | none => true | some pc => !isWordChar pc
    let afterOk := match s.drop run.length with | [] => true | ac :: _ => !isWordChar ac
    if prevOk && afterOk && run.take 3 = ['4', '5', '0'] && 4 ≤ run.length then
      some (String.mk run)
    else searchPOGo (some c) rest

/-- The Customer PO pattern `\b(450\d+)\b` searched in the page text. -/
def searchCustomerPO (text : String) : Option String :=
  searchPOGo none text.data

/-- The accumulated record of `extract_invoice_data` (lines 204-213):
the seven optional scalar fields and the cumulative parts list. -/
structure InvoiceData where
  invoiceId : Option String
  packListId : Option String
  harmonizationCode : Option String
  customerPO : Option String
  shippingMethod : Option String
  shipDate : Option String
  shipToAddress : Option String
  parts : List PartRecord
deriving DecidableEq, Repr

/-- The initial record: every field `None`, no parts. -/
def initialInvoice : InvoiceData := ⟨none, none, none, none, none, none, none, []⟩

/-- Python truthiness of an optional string: `None` and `""` are falsy. -/
def truthy : Option String → Bool
  | none => false
  | some s => s != ""

/-- Lines 222-225: set Invoice ID from the first regex match when still
`None`. -/
def updInvoiceId (d : InvoiceData) (text : String) : InvoiceData :=
  if d.invoiceId = none then
    match searchInvoiceId text with
    | some v => { d with invoiceId := some v }
    | none => d
  else d

/-- Lines 228-231: set Harmonization Code when still `None`. -/
def updHarmonization (d : InvoiceData) (text : String) : InvoiceData :=
  if d.harmonizationCode = none then
    match searchHarmonizationCode text with
    | some v => { d with harmonizationCode := some v }
    | none => d
  else d

/-- Lines 234-237: set Customer PO when still `None`. -/
def updCustomerPO (d : InvoiceData) (text : String) : InvoiceData :=
  if d.customerPO = none then
    match searchCustomerPO text with
    | some v => { d with customerPO := some v }
    | none => d
  else d

/-- Lines 242-244: set PACK LIST ID when the extracted value is truthy
and the field is still `None`. -/
def updPackList (d : InvoiceData) (lines : List String) : InvoiceData :=
  if truthy (get_pack_list_id_from_tokens lines) ∧ d.packListId = none then
    { d with packListId := get_pack_list_id_from_tokens lines }
  else d

/-- Lines 247-249: always extend the parts list with the page's parts. -/
def updParts (d : InvoiceData) (text : String) : InvoiceData :=
  if (get_all_parts text).isEmpty then d
  else { d with parts := d.parts ++ get_all_parts text }

/-- Lines 253-254: set Shipping Method when truthy and still `None`. -/
def updShipMethod (d : InvoiceData) (v : Option String) : InvoiceData :=
  if truthy v ∧ d.shippingMethod = none then { d with shippingMethod := v } else d

/-- Lines 255-256: set Ship Date when truthy and still `None`. -/
def updShipDate (d : InvoiceData) (v : Option String) : InvoiceData :=
  if truthy v ∧ d.shipDate = none then { d with shipDate := v } else d

/-- Lines 252-256: set Shipping Method and Ship Date from the shipping
info of the page's lines. -/
def updShipping (d : InvoiceData) (lines : List String) : InvoiceData :=
  updShipDate (updShipMethod d (get_shipping_info lines).1) (get_shipping_info lines).2

/-- Lines 259-262: set Ship To Address when still `None` and the
extracted value is truthy. -/
def updShipTo (d : InvoiceData) (text : String) : InvoiceData :=
  if d.shipToAddress = none then
    if truthy (get_ship_to_address text) then
      { d with shipToAddress := get_ship_to_address text }
    else d
  else d

/-- The body of the per-page loop of `extract_invoice_data`
(lines 216-262) on one page's text: the field updates applied in the
source's order (Invoice ID, Harmonization Code, Customer PO, PACK LIST
ID, parts table, shipping info, Ship To Address). -/
def processPage (d : InvoiceData) (text : String) : InvoiceData :=
  updShipTo
    (updShipping
      (updParts
        (updPackList
          (updCustomerPO (updHarmonization (updInvoiceId d text) text) text)
          (splitlines text))
        text)
      (splitlines text))
    text

/-- The early-exit condition (lines 265-268): every field truthy and at
least one part row. -/
def allFieldsFound (d : InvoiceData) : Bool :=
  truthy d.invoiceId && truthy d.harmonizationCode && truthy d.packListId &&
  truthy d.customerPO && truthy d.shippingMethod && truthy d.shipDate &&
  truthy d.shipToAddress && !d.parts.isEmpty

/-- The page loop of `extract_invoice_data` with its early-exit break
(lines 216-269); a falsy (empty) page text is skipped by `continue`. -/
def extractWithBreak : InvoiceData → List String → InvoiceData
  | d, [] => d
  | d, p :: ps =>
    if p = "" then extractWithBreak d ps
    else
      let d1 := processPage d p
      if allFieldsFound d1 then d1 else extractWithBreak d1 ps

/-- The same page loop with the early-exit break disabled: the
comparison run named by the early-termination-equivalence claim. -/
def extractNoBreak : InvoiceData → List String → InvoiceData
  | d, [] => d
  | d, p :: ps =>
    if p = "" then extractNoBreak d ps
    else extractNoBreak (processPage d p) ps

/-- `extract_invoice_data` (src/streamlit_app.py lines 191-271) on the
document's already extracted page texts. -/
def extract_invoice_data (pages : List String) : InvoiceData :=
  extractWithBreak initialInvoice pages

/-- The seven scalar fields of two records agree. -/
def scalarAgrees (a b : InvoiceData) : Prop :=
  a.invoiceId = b.invoiceId ∧ a.packListId = b.packListId ∧
  a.harmonizationCode = b.harmonizationCode ∧ a.customerPO = b.customerPO ∧
  a.shippingMethod = b.shippingMethod ∧ a.shipDate = b.shipDate ∧
  a.shipToAddress = b.shipToAddress

/-- An optional scalar field is the explicit absent value or a
non-empty string. -/
def fieldOk (o : Option String) : Prop :=
  o = none ∨ ∃ s, o = some s ∧ s ≠ ""

/-- Every scalar field of the record is absent or a non-empty string. -/
def recordOk (d : InvoiceData) : Prop :=
  fieldOk d.invoiceId ∧ fieldOk d.packListId ∧ fieldOk d.harmonizationCode ∧
  fieldOk d.customerPO ∧ fieldOk d.shippingMethod ∧ fieldOk d.shipDate ∧
  fieldOk d.shipToAddress

/-- The per-line lookup of `get_pack_list_id_from_tokens` fails on this
header line with these repaired data tokens: the merged header has no
"PACK LIST ID" column, or that column's index is out of range. -/
def packLookupFails (line : String) (dataTokens : List String) : Bool :=
  match listIndexOf "PACK LIST ID" (merge_header_tokens (splitWS line)) with
  | none => true
  | some idx => decide (dataTokens.length ≤ idx)

/-- A page text on which every extractor of `extract_invoice_data`
succeeds, completing the record with one part row. -/
def pageOne : String :=
  "Invoice ID: A\nHarmonization Code: 1\n4501\nPACK LIST ID\n7\nSHIPPING METHOD SHIP DATE\na b c d e\nBill To Address Ship To Address\nx y\n\nPART ID DESCRIPTION\np 1.0q r\nCountry MFG:"

/-- A page text holding only a parts table with one further part row. -/
def pageTwo : String := "PART ID DESCRIPTION\ns 2.0t u\nCountry MFG:"


/-! ## Basic lemmas -/

theorem string_data_inj {s t : String} (h : s.data = t.data) : s = t := by
  cases s
  cases t
  exact congrArg String.mk (by simpa using h)

theorem string_append_data (s t : String) : (s ++ t).data = s.data ++ t.data := by
  cases s
  cases t
  rfl

theorem string_append_assoc (a b c : String) : a ++ b ++ c = a ++ (b ++ c) := by
  apply string_data_inj
  simp [string_append_data, List.append_assoc]

theorem string_mk_ne_empty {cs : List Char} (h : cs ≠ []) : String.mk cs ≠ "" := by
  intro he
  apply h
  simpa using congrArg String.data he

/-! ## The split-number merge (claims C3 and C6) -/

theorem mergeNumericGo_pairs : ∀ ts : List String, mergeNumericGo ts false = mergeNumericPairs ts := by
  intro ts
  induction ts using mergeNumericPairs.induct with
  | case1 t next rest hc ih =>
    simp [mergeNumericGo, mergeNumericPairs, hc, ih]
  | case2 t next rest hc ih =>
    simp [mergeNumericGo, mergeNumericPairs, hc, ih]
  | case3 l h1 =>
    cases l with
    | nil => rfl
    | cons t l2 =>
      cases l2 with
      | nil => rfl
      | cons next rest => exact (h1 t next rest rfl).elim

theorem mergeNumericGo_length_le : ∀ (ts : List String) (b : Bool),
    (mergeNumericGo ts b).length ≤ ts.length := by
  intro ts
  induction ts with
  | nil => intro b; simp [mergeNumericGo]
  | cons t rest ih =>
    intro b
    cases b with
    | true =>
      have := ih false
      simp only [mergeNumericGo, List.length_cons]
      omega
    | false =>
      cases rest with
      | nil => simp [mergeNumericGo]
      | cons next rs =>
        by_cases hc : (matchNumTail t && isAllDigits next) = true
        · have := ih true
          simp only [mergeNumericGo, List.length_cons] at *
          rw [if_pos hc]
          simp only [List.length_cons]
          omega
        · have := ih false
          simp only [mergeNumericGo, List.length_cons] at *
          rw [if_neg hc]
          simp only [List.length_cons]
          omega

theorem fixToken_length_le (t : String) : (fixToken t).length ≤ 2 := by
  simp only [fixToken]
  repeat' split
  all_goals simp

theorem fixAllTokens_length_le : ∀ ts : List String,
    (fixAllTokens ts).length ≤ 2 * ts.length := by
  intro ts
  induction ts with
  | nil => simp [fixAllTokens]
  | cons t rest ih =>
    have := fixToken_length_le t
    simp only [fixAllTokens, List.length_append, List.length_cons]
    omega

/-- C3 counterexample: the fused token "1.5ABC" is one input token, but
the repair pipeline of `get_pack_list_id_from_tokens` splits it into
two tokens that the split-number merge cannot recombine, so the output
token count exceeds the input token count. -/
theorem c3_counterexample :
    repairDataTokens ["1.5ABC"] = ["1.5", "ABC"] ∧
    ¬ (repairDataTokens ["1.5ABC"]).length ≤ (["1.5ABC"] : List String).length := by
  constructor
  · decide
  · decide

/-- C3 (amended): the split-number merge alone never increases the
token count, and the repair pipeline as a whole (fusion split followed
by split-number merge) at most doubles it; the claimed bound "output
count ≤ input count" holds for the merge but not for the pipeline. -/
theorem c3_token_count :
    (∀ ts : List String, (merge_numeric_tokens ts).length ≤ ts.length) ∧
    (∀ ts : List String, (repairDataTokens ts).length ≤ 2 * ts.length) := by
  constructor
  · intro ts
    exact mergeNumericGo_length_le ts false
  · intro ts
    calc (repairDataTokens ts).length ≤ (fixAllTokens ts).length :=
          mergeNumericGo_length_le (fixAllTokens ts) false
      _ ≤ 2 * ts.length := fixAllTokens_length_le ts

/-- C6 counterexample: the code's left-token pattern is `^\d+\.\d*$`,
so the pair `"25.", "7"` is merged although `"25."` does not match the
claim's "digits.digits" pattern; the claimed "exactly when" condition
is therefore not the code's condition. -/
theorem c6_counterexample :
    merge_numeric_tokens ["25.", "7"] = ["25.7"] ∧
    mergeNumericPairsSpec ["25.", "7"] = ["25.", "7"] ∧
    isDigitsDotDigits "25." = false := by
  refine ⟨?_, ?_, ?_⟩ <;> decide

/-- C6 (amended): the split-number merge concatenates a pair exactly
when token i matches digits-dot-(zero or more digits), `^\d+\.\d*$`,
and token i+1 is digits only, consuming token i+1 so that it is never
reused as a left half in the same pass; `"25.0", "0"` becomes
`"25.00"`, and a third adjacent all-digit token is not folded in. -/
theorem c6_split_number_merge :
    (∀ ts : List String, merge_numeric_tokens ts = mergeNumericPairs ts) ∧
    merge_numeric_tokens ["25.0", "0"] = ["25.00"] ∧
    merge_numeric_tokens ["25.0", "0", "0"] = ["25.00", "0"] :=
  ⟨fun ts => mergeNumericGo_pairs ts, by decide, by decide⟩

/-! ## Table extraction (claims C2 and C10) -/

/-- C2 counterexample: run on the claimed rows after a valid header and
before the terminator, the extractor merges the rows but the numeric
strip `re.sub(r'^\d+\.\d+', '', ...)` does not fire on
"SHIP9998ABC-1" (no leading decimal number), so the identifier is
"SHIP9998ABC-1", not the claimed "ABC-1". -/
theorem c2_counterexample :
    get_all_parts "PART ID DESCRIPTION\n00123 SHIP9998ABC-1 Widget $1.00 $5.00\n00003\nCountry MFG: US" =
      [⟨"SHIP9998ABC-1", "Widget", some "$1.00", some "$5.00"⟩] ∧
    ("SHIP9998ABC-1" : String) ≠ "ABC-1" := by
  constructor
  · decide
  · decide

/-- C2 (amended): for the claimed rows following any valid parts-table
header and preceding the terminator, the purely numeric line is merged
into the preceding row before splitting, and the single resulting part
record has identifier "SHIP9998ABC-1" (the numeric-prefix pattern
`^\d+\.\d+` does not match, so nothing is stripped), description
"Widget", unit price "$1.00" and extended price "$5.00". -/
theorem c2_row_continuation (h : String)
    (h1 : strContains h "PART ID" = true) (h2 : strContains h "DESCRIPTION" = true) :
    getAllPartsFromLines
        [h, "00123 SHIP9998ABC-1 Widget $1.00 $5.00", "00003", "Country MFG: US"] =
      [⟨"SHIP9998ABC-1", "Widget", some "$1.00", some "$5.00"⟩] := by
  simp only [getAllPartsFromLines, findPartsHeader, h1, h2, Bool.and_self, if_true]
  decide

theorem c2_witness :
    getAllPartsFromLines
        ["PART ID DESCRIPTION", "00123 SHIP9998ABC-1 Widget $1.00 $5.00", "00003",
          "Country MFG: US"] =
      [⟨"SHIP9998ABC-1", "Widget", some "$1.00", some "$5.00"⟩] :=
  c2_row_continuation "PART ID DESCRIPTION" (by decide) (by decide)

/-- C10: a purely numeric line right after the parts-table header, with
no row collected yet, is silently dropped: the parts list is the same
as if the line were absent. -/
theorem c10_numeric_line_before_rows (h l : String) (rest : List String)
    (hh : (strContains h "PART ID" && strContains h "DESCRIPTION") = true)
    (hne : pyStrip l ≠ "") (hdig : isAllDigits (pyStrip l) = true)
    (hterm : strContains l "Country MFG:" = false) :
    getAllPartsFromLines (h :: l :: rest) = getAllPartsFromLines (h :: rest) := by
  simp only [getAllPartsFromLines, findPartsHeader, hh, if_true]
  have hrows : collectRows (l :: rest) [] = collectRows rest [] := by
    simp only [collectRows, hterm]
    rw [if_neg (by simp), if_neg hne, if_pos hdig]
  rw [hrows]

theorem c10_witness :
    getAllPartsFromLines ["PART ID DESCRIPTION", "00003", "5 1.0A B", "Country MFG:"] =
      getAllPartsFromLines ["PART ID DESCRIPTION", "5 1.0A B", "Country MFG:"] :=
  c10_numeric_line_before_rows "PART ID DESCRIPTION" "00003" ["5 1.0A B", "Country MFG:"]
    (by decide) (by decide) (by decide) (by decide)

/-! ## The pack-list extractor (claims C4 and C5) -/

theorem listIndexOf_lt_length {x : String} :
    ∀ {l : List String} {i : Nat}, listIndexOf x l = some i → i < l.length := by
  intro l
  induction l with
  | nil => intro i h; simp [listIndexOf] at h
  | cons y ys ih =>
    intro i h
    simp only [listIndexOf] at h
    by_cases hy : y = x
    · rw [if_pos hy] at h
      cases h
      simp
    · rw [if_neg hy] at h
      cases hin : listIndexOf x ys with
      | none => rw [hin] at h; simp at h
      | some j =>
        rw [hin] at h
        have hj := ih hin
        simp at h
        simp only [List.length_cons]
        omega

theorem pack_skip (pre rest : List String)
    (hpre : ∀ p ∈ pre,
      (strContains p "PACK" && strContains p "LIST" && strContains p "ID") = false) :
    get_pack_list_id_from_tokens (pre ++ rest) = get_pack_list_id_from_tokens rest := by
  induction pre with
  | nil => rfl
  | cons p ps ih =>
    have hp := hpre p (List.mem_cons_self p ps)
    simp only [List.cons_append, get_pack_list_id_from_tokens, hp, Bool.false_eq_true,
      if_false]
    exact ih (fun q hq => hpre q (List.mem_cons_of_mem p hq))

/-- C5 counterexample: the first line of the page contains all three
markers "PACK", "LIST", "ID" but its merged header has no
"PACK LIST ID" column; the claim says the extractor must then return
`none` for this page, yet the code's loop goes on and returns the
value "42" taken from the later marker line. -/
theorem c5_counterexample :
    (strContains "PACKLISTID" "PACK" && strContains "PACKLISTID" "LIST" &&
      strContains "PACKLISTID" "ID") = true ∧
    listIndexOf "PACK LIST ID" (merge_header_tokens (splitWS "PACKLISTID")) = none ∧
    get_pack_list_id_from_tokens ["PACKLISTID", "PACK LIST ID", "42"] = some "42" := by
  refine ⟨?_, ?_, ?_⟩ <;> decide

/-- C5 (amended): when the lookup fails on a line containing all three
markers (merged header lacks the "PACK LIST ID" column, or its index is
out of range of the repaired data tokens), the extractor does not give
up on the page: it continues the scan with the remaining lines, so the
result is that of the extractor on the rest of the page. -/
theorem c5_failed_line_falls_through (line : String) (rest : List String)
    (hm : (strContains line "PACK" && strContains line "LIST" && strContains line "ID") = true)
    (hf : packLookupFails line (repairDataTokens (splitWS (rest.headD ""))) = true) :
    get_pack_list_id_from_tokens (line :: rest) = get_pack_list_id_from_tokens rest := by
  simp only [get_pack_list_id_from_tokens, hm, if_true]
  unfold packLookupFails at hf
  cases hidx : listIndexOf "PACK LIST ID" (merge_header_tokens (splitWS line)) with
  | none => simp [hidx]
  | some idx =>
    rw [hidx] at hf
    have hlen : (repairDataTokens (splitWS (rest.headD ""))).length ≤ idx :=
      of_decide_eq_true hf
    have hnone : (repairDataTokens (splitWS (rest.headD "")))[idx]? = none :=
      List.getElem?_eq_none hlen
    simp only [hidx, hnone]

theorem c5_witness :
    get_pack_list_id_from_tokens ["PACKLISTID", "PACK LIST ID", "42"] =
      get_pack_list_id_from_tokens ["PACK LIST ID", "42"] :=
  c5_failed_line_falls_through "PACKLISTID" ["PACK LIST ID", "42"] (by decide) (by decide)

/-- C4: when the data row following the first marker line has at least
as many repaired tokens as the merged header has logical columns, the
extractor returns the data token at the index of the "PACK LIST ID"
column; in particular header "PACK LIST ID SALES REP ID" with data
"182371 INTL" gives "182371". -/
theorem c4_positional_correspondence :
    (∀ (pre : List String) (line : String) (rest : List String) (idx : Nat),
      (∀ p ∈ pre,
        (strContains p "PACK" && strContains p "LIST" && strContains p "ID") = false) →
      (strContains line "PACK" && strContains line "LIST" && strContains line "ID") = true →
      listIndexOf "PACK LIST ID" (merge_header_tokens (splitWS line)) = some idx →
      (merge_header_tokens (splitWS line)).length ≤
        (repairDataTokens (splitWS (rest.headD ""))).length →
      get_pack_list_id_from_tokens (pre ++ line :: rest) =
        (repairDataTokens (splitWS (rest.headD "")))[idx]?) ∧
    get_pack_list_id_from_tokens ["PACK LIST ID SALES REP ID", "182371 INTL"] =
      some "182371" := by
  constructor
  · intro pre line rest idx hpre hline hidx hlen
    rw [pack_skip pre _ hpre]
    simp only [get_pack_list_id_from_tokens, hline, if_true, hidx]
    have hlt : idx < (repairDataTokens (splitWS (rest.headD ""))).length :=
      lt_of_lt_of_le (listIndexOf_lt_length hidx) hlen
    rw [List.getElem?_eq_getElem hlt]
  · decide

theorem c4_witness :
    get_pack_list_id_from_tokens ["x", "PACK LIST ID SALES", "182371 INTL"] =
      some "182371" := by
  have h := c4_positional_correspondence.1 ["x"] "PACK LIST ID SALES" ["182371 INTL"] 0
    (by decide) (by decide) (by decide) (by decide)
  exact h.trans (by decide)

/-! ## Shipping method and date (claim C7) -/

theorem shipping_skip (pre rest : List String)
    (hpre : ∀ p ∈ pre,
      (strContains p "SHIPPING METHOD" && strContains p "SHIP DATE") = false) :
    get_shipping_info (pre ++ rest) = get_shipping_info rest := by
  induction pre with
  | nil => rfl
  | cons p ps ih =>
    have hp := hpre p (List.mem_cons_self p ps)
    simp only [List.cons_append, get_shipping_info, hp, Bool.false_eq_true, if_false]
    exact ih (fun q hq => hpre q (List.mem_cons_of_mem p hq))

/-- C7: at the first line containing both "SHIPPING METHOD" and
"SHIP DATE", with a following data line of at least 5 whitespace
tokens, the shipping method is the space-join of the tokens strictly
between the first two and the last two, and the ship date is the
second-to-last token; with fewer than 5 tokens both results are
`none`. -/
theorem c7_shipping_fields (pre : List String) (line dl : String) (rest : List String)
    (hpre : ∀ p ∈ pre,
      (strContains p "SHIPPING METHOD" && strContains p "SHIP DATE") = false)
    (hline : (strContains line "SHIPPING METHOD" && strContains line "SHIP DATE") = true) :
    get_shipping_info (pre ++ line :: dl :: rest) =
      if 5 ≤ (splitWS dl).length then
        (some (joinSpace (((splitWS dl).take ((splitWS dl).length - 2)).drop 2)),
          (splitWS dl)[(splitWS dl).length - 2]?)
      else (none, none) := by
  rw [shipping_skip pre _ hpre]
  simp only [get_shipping_info, hline, if_true]

theorem c7_witness :
    get_shipping_info ["x", "SHIPPING METHOD SHIP DATE", "A B C D E"] =
      (some "C", some "D") := by
  have h := c7_shipping_fields ["x"] "SHIPPING METHOD SHIP DATE" "A B C D E" []
    (by decide) (by decide)
  exact h.trans (by decide)

/-! ## The header-token merger preserves the joined text (claim C9) -/

theorem string_append_empty (s : String) : s ++ "" = s := by
  apply string_data_inj
  have h : ("" : String).data = [] := rfl
  simp [string_append_data, h]

theorem joinSpace_block : ∀ (p l : List String), p ≠ [] →
    joinSpace (joinSpace p :: l) = joinSpace (p ++ l) := by
  intro p
  induction p with
  | nil => intro l h; exact absurd rfl h
  | cons x q ih =>
    intro l _
    cases q with
    | nil => rfl
    | cons y q2 =>
      have hih := ih l (by simp)
      cases l with
      | nil =>
        simp only [List.append_nil]
        rfl
      | cons z zs =>
        calc joinSpace ((x ++ " " ++ joinSpace (y :: q2)) :: z :: zs)
            = x ++ " " ++ joinSpace (y :: q2) ++ " " ++ joinSpace (z :: zs) := rfl
          _ = x ++ " " ++ (joinSpace (y :: q2) ++ " " ++ joinSpace (z :: zs)) := by
              simp [string_append_assoc]
          _ = x ++ " " ++ joinSpace (joinSpace (y :: q2) :: z :: zs) := rfl
          _ = x ++ " " ++ joinSpace ((y :: q2) ++ z :: zs) := by rw [hih]
          _ = joinSpace ((x :: y :: q2) ++ z :: zs) := rfl

theorem merge_header_tokens_isEmpty (ts : List String) :
    (merge_header_tokens ts).isEmpty = ts.isEmpty := by
  match ts with
  | [] => rfl
  | [a] => rfl
  | [a, b] =>
    simp only [merge_header_tokens]
    repeat' split
    all_goals simp
  | a :: b :: c :: rest =>
    simp only [merge_header_tokens]
    repeat' split
    all_goals simp

theorem joinSpace_cons_congr (a : String) {l l2 : List String}
    (h : joinSpace l = joinSpace l2) (hemp : l.isEmpty = l2.isEmpty) :
    joinSpace (a :: l) = joinSpace (a :: l2) := by
  cases l with
  | nil =>
    cases l2 with
    | nil => rfl
    | cons z zs => simp at hemp
  | cons y ys =>
    cases l2 with
    | nil => simp at hemp
    | cons z zs =>
      show a ++ " " ++ joinSpace (y :: ys) = a ++ " " ++ joinSpace (z :: zs)
      rw [h]

/-- C9: space-joining the output of the header-token merger equals
space-joining the input; the merger only regroups adjacent tokens and
never drops, reorders, duplicates or alters token text. -/
theorem c9_header_merge_preserves_join (ts : List String) :
    joinSpace (merge_header_tokens ts) = joinSpace ts := by
  induction ts using merge_header_tokens.induct with
  | case1 a b c rest h ih =>
    obtain ⟨ha, hb, hc⟩ := h
    subst ha; subst hb; subst hc
    have e1 : merge_header_tokens ("PACK" :: "LIST" :: "ID" :: rest) =
        "PACK LIST ID" :: merge_header_tokens rest := by
      simp [merge_header_tokens]
    rw [e1]
    have e2 : ("PACK LIST ID" : String) = joinSpace ["PACK", "LIST", "ID"] := by decide
    rw [e2, joinSpace_block ["PACK", "LIST", "ID"] _ (by simp)]
    exact joinSpace_cons_congr _
      (joinSpace_cons_congr _
        (joinSpace_cons_congr _ ih (merge_header_tokens_isEmpty rest)) (by simp))
      (by simp)
  | case2 a b c rest h1 h ih =>
    obtain ⟨ha, hb⟩ := h
    subst ha; subst hb
    have e1 : merge_header_tokens ("PART" :: "ID" :: c :: rest) =
        "PART ID" :: merge_header_tokens (c :: rest) := by
      rw [merge_header_tokens, if_neg h1, if_pos ⟨rfl, rfl⟩]
    rw [e1]
    have e2 : ("PART ID" : String) = joinSpace ["PART", "ID"] := by decide
    rw [e2, joinSpace_block ["PART", "ID"] _ (by simp)]
    exact joinSpace_cons_congr _
      (joinSpace_cons_congr _ ih (merge_header_tokens_isEmpty (c :: rest))) (by simp)
  | case3 a b c rest h1 h2 h ih =>
    obtain ⟨ha, hb⟩ := h
    subst ha; subst hb
    have e1 : merge_header_tokens ("SHIPPING" :: "METHOD" :: c :: rest) =
        "SHIPPING METHOD" :: merge_header_tokens (c :: rest) := by
      rw [merge_header_tokens, if_neg h1, if_neg h2, if_pos ⟨rfl, rfl⟩]
    rw [e1]
    have e2 : ("SHIPPING METHOD" : String) = joinSpace ["SHIPPING", "METHOD"] := by decide
    rw [e2, joinSpace_block ["SHIPPING", "METHOD"] _ (by simp)]
    exact joinSpace_cons_congr _
      (joinSpace_cons_congr _ ih (merge_header_tokens_isEmpty (c :: rest))) (by simp)
  | case4 a b c rest h1 h2 h3 h ih =>
    obtain ⟨ha, hb⟩ := h
    subst ha; subst hb
    have e1 : merge_header_tokens ("SHIP" :: "DATE" :: c :: rest) =
        "SHIP DATE" :: merge_header_tokens (c :: rest) := by
      rw [merge_header_tokens, if_neg h1, if_neg h2, if_neg h3, if_pos ⟨rfl, rfl⟩]
    rw [e1]
    have e2 : ("SHIP DATE" : String) = joinSpace ["SHIP", "DATE"] := by decide
    rw [e2, joinSpace_block ["SHIP", "DATE"] _ (by simp)]
    exact joinSpace_cons_congr _
      (joinSpace_cons_congr _ ih (merge_header_tokens_isEmpty (c :: rest))) (by simp)
  | case5 a b c rest h1 h2 h3 h4 ih =>
    have e1 : merge_header_tokens (a :: b :: c :: rest) =
        a :: merge_header_tokens (b :: c :: rest) := by
      rw [merge_header_tokens, if_neg h1, if_neg h2, if_neg h3, if_neg h4]
    rw [e1]
    exact joinSpace_cons_congr _ ih (merge_header_tokens_isEmpty (b :: c :: rest))
  | case6 a b h =>
    obtain ⟨ha, hb⟩ := h
    subst ha; subst hb
    decide
  | case7 a b h1 h =>
    obtain ⟨ha, hb⟩ := h
    subst ha; subst hb
    decide
  | case8 a b h1 h2 h =>
    obtain ⟨ha, hb⟩ := h
    subst ha; subst hb
    decide
  | case9 a b h1 h2 h3 =>
    have e1 : merge_header_tokens [a, b] = [a, b] := by
      rw [merge_header_tokens, if_neg h1, if_neg h2, if_neg h3]
    rw [e1]
  | case10 a => rfl
  | case11 => rfl

/-! ## Scalar fields are absent or non-empty (claim C8) -/

theorem searchLabeledGo_ne_empty {label : List Char} {cc : Char → Bool} :
    ∀ {cs : List Char} {v : String}, searchLabeledGo label cc cs = some v → v ≠ "" := by
  intro cs
  induction cs with
  | nil => intro v h; simp [searchLabeledGo] at h
  | cons c rest ih =>
    intro v h
    simp only [searchLabeledGo] at h
    by_cases hp : label.isPrefixOf (c :: rest) = true
    · rw [if_pos hp] at h
      by_cases hcap :
          ((((c :: rest).drop label.length).dropWhile pyIsSpace).takeWhile cc).isEmpty = true
      · rw [if_pos hcap] at h
        exact ih h
      · rw [if_neg hcap] at h
        cases h
        exact string_mk_ne_empty (by simpa [List.isEmpty_iff] using hcap)
    · rw [if_neg hp] at h
      exact ih h

theorem searchPOGo_ne_empty :
    ∀ {prev : Option Char} {cs : List Char} {v : String},
      searchPOGo prev cs = some v → v ≠ "" := by
  intro prev cs
  induction cs generalizing prev with
  | nil => intro v h; simp [searchPOGo] at h
  | cons c rest ih =>
    intro v h
    simp only [searchPOGo] at h
    split at h
    · cases h
      rename_i hcond
      rw [Bool.and_eq_true, Bool.and_eq_true, Bool.and_eq_true] at hcond
      have hrun : 4 ≤ ((c :: rest).takeWhile Char.isDigit).length :=
        of_decide_eq_true hcond.2
      apply string_mk_ne_empty
      intro hnil
      rw [hnil] at hrun
      simp at hrun
    · exact ih h

theorem truthy_fieldOk {o : Option String} (h : truthy o = true) : fieldOk o := by
  cases o with
  | none => simp [truthy] at h
  | some s =>
    right
    exact ⟨s, rfl, by simpa [truthy] using h⟩

theorem recordOk_updInvoiceId {d : InvoiceData} {t : String} (h : recordOk d) :
    recordOk (updInvoiceId d t) := by
  unfold updInvoiceId
  split
  · cases hs : searchInvoiceId t with
    | none => exact h
    | some v =>
      obtain ⟨-, h2, h3, h4, h5, h6, h7⟩ := h
      exact ⟨Or.inr ⟨v, rfl, searchLabeledGo_ne_empty hs⟩, h2, h3, h4, h5, h6, h7⟩
  · exact h

theorem recordOk_updHarmonization {d : InvoiceData} {t : String} (h : recordOk d) :
    recordOk (updHarmonization d t) := by
  unfold updHarmonization
  split
  · cases hs : searchHarmonizationCode t with
    | none => exact h
    | some v =>
      obtain ⟨h1, h2, -, h4, h5, h6, h7⟩ := h
      exact ⟨h1, h2, Or.inr ⟨v, rfl, searchLabeledGo_ne_empty hs⟩, h4, h5, h6, h7⟩
  · exact h

theorem recordOk_updCustomerPO {d : InvoiceData} {t : String} (h : recordOk d) :
    recordOk (updCustomerPO d t) := by
  unfold updCustomerPO
  split
  · cases hs : searchCustomerPO t with
    | none => exact h
    | some v =>
      obtain ⟨h1, h2, h3, -, h5, h6, h7⟩ := h
      exact ⟨h1, h2, h3, Or.inr ⟨v, rfl, searchPOGo_ne_empty hs⟩, h5, h6, h7⟩
  · exact h

theorem recordOk_updPackList {d : InvoiceData} {lines : List String} (h : recordOk d) :
    recordOk (updPackList d lines) := by
  unfold updPackList
  split
  · rename_i hc
    obtain ⟨h1, -, h3, h4, h5, h6, h7⟩ := h
    exact ⟨h1, truthy_fieldOk hc.1, h3, h4, h5, h6, h7⟩
  · exact h

theorem recordOk_updParts {d : InvoiceData} {t : String} (h : recordOk d) :
    recordOk (updParts d t) := by
  unfold updParts
  split
  · exact h
  · exact h

theorem recordOk_updShipMethod {d : InvoiceData} {v : Option String} (h : recordOk d) :
    recordOk (updShipMethod d v) := by
  unfold updShipMethod
  split
  · rename_i hc
    obtain ⟨h1, h2, h3, h4, -, h6, h7⟩ := h
    exact ⟨h1, h2, h3, h4, truthy_fieldOk hc.1, h6, h7⟩
  · exact h

theorem recordOk_updShipDate {d : InvoiceData} {v : Option String} (h : recordOk d) :
    recordOk (updShipDate d v) := by
  unfold updShipDate
  split
  · rename_i hc
    obtain ⟨h1, h2, h3, h4, h5, -, h7⟩ := h
    exact ⟨h1, h2, h3, h4, h5, truthy_fieldOk hc.1, h7⟩
  · exact h

theorem recordOk_updShipping {d : InvoiceData} {lines : List String} (h : recordOk d) :
    recordOk (updShipping d lines) :=
  recordOk_updShipDate (recordOk_updShipMethod h)

theorem recordOk_updShipTo {d : InvoiceData} {t : String} (h : recordOk d) :
    recordOk (updShipTo d t) := by
  unfold updShipTo
  split
  · split
    · rename_i hc
      obtain ⟨h1, h2, h3, h4, h5, h6, -⟩ := h
      exact ⟨h1, h2, h3, h4, h5, h6, truthy_fieldOk hc⟩
    · exact h
  · exact h

theorem recordOk_processPage {d : InvoiceData} {t : String} (h : recordOk d) :
    recordOk (processPage d t) :=
  recordOk_updShipTo (recordOk_updShipping (recordOk_updParts (recordOk_updPackList
    (recordOk_updCustomerPO (recordOk_updHarmonization (recordOk_updInvoiceId h))))))

theorem recordOk_extractWithBreak :
    ∀ (ps : List String) (d : InvoiceData), recordOk d → recordOk (extractWithBreak d ps) := by
  intro ps
  induction ps with
  | nil => intro d h; exact h
  | cons p rest ih =>
    intro d h
    by_cases hp : p = ""
    · simp only [extractWithBreak, hp, if_pos rfl]
      exact ih d h
    · simp only [extractWithBreak, if_neg hp]
      split
      · exact recordOk_processPage h
      · exact ih _ (recordOk_processPage h)

/-- C8: every optional scalar field of the extracted invoice record is
the explicit absent value `none` or a non-empty string; no field is
ever the empty string. -/
theorem c8_fields_absent_or_nonempty (pages : List String) :
    fieldOk (extract_invoice_data pages).invoiceId ∧
    fieldOk (extract_invoice_data pages).packListId ∧
    fieldOk (extract_invoice_data pages).harmonizationCode ∧
    fieldOk (extract_invoice_data pages).customerPO ∧
    fieldOk (extract_invoice_data pages).shippingMethod ∧
    fieldOk (extract_invoice_data pages).shipDate ∧
    fieldOk (extract_invoice_data pages).shipToAddress :=
  recordOk_extractWithBreak pages initialInvoice
    ⟨Or.inl rfl, Or.inl rfl, Or.inl rfl, Or.inl rfl, Or.inl rfl, Or.inl rfl, Or.inl rfl⟩

/-! ## Early-exit behaviour of the record assembler (claim C1) -/

theorem truthy_ne_none {o : Option String} (h : truthy o = true) : o ≠ none := by
  cases o with
  | none => simp [truthy] at h
  | some s => simp

theorem allFieldsFound_spec {d : InvoiceData} (h : allFieldsFound d = true) :
    d.invoiceId ≠ none ∧ d.harmonizationCode ≠ none ∧ d.packListId ≠ none ∧
    d.customerPO ≠ none ∧ d.shippingMethod ≠ none ∧ d.shipDate ≠ none ∧
    d.shipToAddress ≠ none ∧ d.parts ≠ [] := by
  simp only [allFieldsFound, Bool.and_eq_true] at h
  obtain ⟨⟨⟨⟨⟨⟨⟨h1, h2⟩, h3⟩, h4⟩, h5⟩, h6⟩, h7⟩, h8⟩ := h
  refine ⟨truthy_ne_none h1, truthy_ne_none h2, truthy_ne_none h3, truthy_ne_none h4,
    truthy_ne_none h5, truthy_ne_none h6, truthy_ne_none h7, ?_⟩
  simpa [List.isEmpty_iff] using h8

theorem updInvoiceId_of_set {d : InvoiceData} (t : String) (h : d.invoiceId ≠ none) :
    updInvoiceId d t = d := by
  unfold updInvoiceId
  rw [if_neg h]

theorem updHarmonization_of_set {d : InvoiceData} (t : String)
    (h : d.harmonizationCode ≠ none) : updHarmonization d t = d := by
  unfold updHarmonization
  rw [if_neg h]

theorem updCustomerPO_of_set {d : InvoiceData} (t : String) (h : d.customerPO ≠ none) :
    updCustomerPO d t = d := by
  unfold updCustomerPO
  rw [if_neg h]

theorem updPackList_of_set {d : InvoiceData} (lines : List String)
    (h : d.packListId ≠ none) : updPackList d lines = d := by
  unfold updPackList
  rw [if_neg (fun hc => h hc.2)]

theorem updShipMethod_of_set {d : InvoiceData} (v : Option String)
    (h : d.shippingMethod ≠ none) : updShipMethod d v = d := by
  unfold updShipMethod
  rw [if_neg (fun hc => h hc.2)]

theorem updShipDate_of_set {d : InvoiceData} (v : Option String)
    (h : d.shipDate ≠ none) : updShipDate d v = d := by
  unfold updShipDate
  rw [if_neg (fun hc => h hc.2)]

theorem updShipping_of_set {d : InvoiceData} (lines : List String)
    (h5 : d.shippingMethod ≠ none) (h6 : d.shipDate ≠ none) :
    updShipping d lines = d := by
  unfold updShipping
  rw [updShipMethod_of_set _ h5, updShipDate_of_set _ h6]

theorem updShipTo_of_set {d : InvoiceData} (t : String) (h : d.shipToAddress ≠ none) :
    updShipTo d t = d := by
  unfold updShipTo
  rw [if_neg h]

theorem updParts_eq (d : InvoiceData) (t : String) :
    updParts d t = { d with parts := d.parts ++ get_all_parts t } := by
  unfold updParts
  split
  · rename_i hemp
    have hnil : get_all_parts t = [] := List.isEmpty_iff.mp hemp
    rw [hnil]
    simp
  · rfl

theorem processPage_of_found {d : InvoiceData} (t : String) (h : allFieldsFound d = true) :
    processPage d t = { d with parts := d.parts ++ get_all_parts t } := by
  obtain ⟨h1, h2, h3, h4, h5, h6, h7, -⟩ := allFieldsFound_spec h
  unfold processPage
  rw [updInvoiceId_of_set _ h1, updHarmonization_of_set _ h2, updCustomerPO_of_set _ h4,
    updPackList_of_set _ h3, updParts_eq]
  have h5a : ({ d with parts := d.parts ++ get_all_parts t } : InvoiceData).shippingMethod ≠
      none := h5
  have h6a : ({ d with parts := d.parts ++ get_all_parts t } : InvoiceData).shipDate ≠
      none := h6
  have h7a : ({ d with parts := d.parts ++ get_all_parts t } : InvoiceData).shipToAddress ≠
      none := h7
  rw [updShipping_of_set _ h5a h6a, updShipTo_of_set _ h7a]

theorem allFieldsFound_parts_ext {d : InvoiceData} (h : allFieldsFound d = true)
    (g : List PartRecord) : allFieldsFound { d with parts := d.parts ++ g } = true := by
  simp only [allFieldsFound, Bool.and_eq_true] at h ⊢
  refine ⟨h.1, ?_⟩
  have hne : d.parts ≠ [] := by
    have h8 := h.2
    intro hnil
    rw [hnil] at h8
    simp at h8
  cases hp : d.parts with
  | nil => exact absurd hp hne
  | cons a l => simp

theorem extractNoBreak_of_found : ∀ (ps : List String) (d : InvoiceData),
    allFieldsFound d = true →
    ∃ t, extractNoBreak d ps = { d with parts := d.parts ++ t } := by
  intro ps
  induction ps with
  | nil =>
    intro d h
    refine ⟨[], ?_⟩
    show d = { d with parts := d.parts ++ [] }
    simp
  | cons p rest ih =>
    intro d h
    by_cases hp : p = ""
    · obtain ⟨t, ht⟩ := ih d h
      refine ⟨t, ?_⟩
      simp only [extractNoBreak, if_pos hp]
      exact ht
    · obtain ⟨t2, ht2⟩ := ih { d with parts := d.parts ++ get_all_parts p }
        (allFieldsFound_parts_ext h (get_all_parts p))
      refine ⟨get_all_parts p ++ t2, ?_⟩
      simp only [extractNoBreak, if_neg hp]
      rw [processPage_of_found p h, ht2]
      simp [List.append_assoc]

theorem extract_relation : ∀ (ps : List String) (d : InvoiceData),
    scalarAgrees (extractWithBreak d ps) (extractNoBreak d ps) ∧
    ∃ t, (extractNoBreak d ps).parts = (extractWithBreak d ps).parts ++ t := by
  intro ps
  induction ps with
  | nil =>
    intro d
    exact ⟨⟨rfl, rfl, rfl, rfl, rfl, rfl, rfl⟩,
      ⟨[], by simp [extractNoBreak, extractWithBreak]⟩⟩
  | cons p rest ih =>
    intro d
    by_cases hp : p = ""
    · simpa only [extractWithBreak, extractNoBreak, if_pos hp] using ih d
    · by_cases hf : allFieldsFound (processPage d p) = true
      · obtain ⟨t, ht⟩ := extractNoBreak_of_found rest (processPage d p) hf
        constructor
        · simp only [extractWithBreak, extractNoBreak, if_neg hp, if_pos hf, ht]
          exact ⟨rfl, rfl, rfl, rfl, rfl, rfl, rfl⟩
        · refine ⟨t, ?_⟩
          simp only [extractWithBreak, extractNoBreak, if_neg hp, if_pos hf, ht]
      · simpa only [extractWithBreak, extractNoBreak, if_neg hp, if_neg hf] using
          ih (processPage d p)

/-- C1 counterexample: on a two-page document whose first page already
completes the record with one part row and whose second page holds a
further parts table, the run with early exit stops after page one while
the run without it appends the second page's part, so the final records
differ (the claim asserts they are identical for every document). -/
theorem c1_counterexample :
    (extract_invoice_data [pageOne, pageTwo]).parts = [⟨"q", "r", none, none⟩] ∧
    (extractNoBreak initialInvoice [pageOne, pageTwo]).parts =
      [⟨"q", "r", none, none⟩, ⟨"t", "u", none, none⟩] ∧
    extract_invoice_data [pageOne, pageTwo] ≠
      extractNoBreak initialInvoice [pageOne, pageTwo] := by
  refine ⟨?_, ?_, ?_⟩ <;> decide

/-- C1 (amended): disabling the early-exit break preserves all seven
scalar fields of the final record, and the early-exit PARTS list is a
prefix of the no-break PARTS list; the two PARTS lists need not be
equal, since pages after the completing one may contribute further
parts. -/
theorem c1_early_exit_refinement (pages : List String) :
    scalarAgrees (extract_invoice_data pages) (extractNoBreak initialInvoice pages) ∧
    ∃ t, (extractNoBreak initialInvoice pages).parts =
      (extract_invoice_data pages).parts ++ t :=
  extract_relation pages initialInvoice
